import Mathlib

/-!
Verification of the PLC alarm watcher (`watcher.py`).

The file shallowly embeds the parts of `watcher.py` that the specification
talks about: the alarm/signal table extraction (`parse_alarms`,
`parse_signals`), the login payload construction (`parse_hidden_inputs` and
the credential injection in `login_and_get_session`), the session-token
recovery (`extract_param0`, the token scan of `login_and_get_session`),
the change-detection loop, the notification dispatch with its per-cycle
cap, and the state persistence of one `check_once` cycle.

HTML parsing (BeautifulSoup) and HTTP transport are external collaborators:
a parsed alarm page is modelled as `Option (List (List String))` (`none`
when the document has no table, otherwise the list of rows, each row the
list of its cell texts), a form as a list of `FormInput`s, and the Telegram
transport as a success oracle.
-/

set_option autoImplicit false

namespace PlcWatcher

/-- An alarm record as built by `parse_alarms` (watcher.py lines 298-318):
the seven cell texts of a table row plus the URL the page was fetched from. -/
structure Alarm where
  ref : String
  etiqueta : String
  tipo : String
  valor : String
  hora : String
  transicion : String
  estado : String
  url : String
  deriving DecidableEq, Repr

/-- The composite alarm identity, watcher.py line 306:
`alarm_id = f"{ref}|{hora}|{transicion}|{valor}|{etiqueta}"`. -/
def Alarm.id (a : Alarm) : String :=
  a.ref ++ "|" ++ a.hora ++ "|" ++ a.transicion ++ "|" ++ a.valor ++ "|" ++ a.etiqueta

/-- The break test of the change-detection loop, watcher.py line 367:
`if last_id and a["id"] == last_id: break`.  `last_id` is truthy exactly
when it is present and non-empty. -/
def seenBreak (lastId : Option String) (a : Alarm) : Bool :=
  match lastId with
  | none => false
  | some l => if l = "" then false else a.id == l

/-- The accumulation loop of watcher.py lines 365-369: walk the
most-recent-first alarm list, stop (discarding the rest) at the first
record whose id equals the remembered one. -/
def newAlarmsLoop (lastId : Option String) : List Alarm → List Alarm
  | [] => []
  | a :: rest => if seenBreak lastId a then [] else a :: newAlarmsLoop lastId rest

/-- Change detection of `check_once`, watcher.py lines 365-376: the
accumulated buffer reversed into chronological (oldest-first) order. -/
def detect_new (alarms : List Alarm) (lastId : Option String) : List Alarm :=
  (newAlarmsLoop lastId alarms).reverse

/-- The composite id always contains a `|` separator, hence is never the
empty string; so a stored last id that equals some alarm's id is truthy. -/
theorem Alarm.id_ne_empty (a : Alarm) : a.id ≠ "" := by
  intro h
  have hlen := congrArg String.length h
  simp [Alarm.id, String.length_append] at hlen
  exact absurd hlen.1.1.1.1.1.2 (by decide)

/-- With a truthy (non-empty) remembered id, the accumulation loop is
exactly `takeWhile (id ≠ lastId)`. -/
theorem newAlarmsLoop_eq_takeWhile (l : String) (hl : l ≠ "") (S : List Alarm) :
    newAlarmsLoop (some l) S = S.takeWhile (fun a => a.id != l) := by
  induction S with
  | nil => rfl
  | cons a rest ih =>
    by_cases h : a.id = l
    · simp [newAlarmsLoop, seenBreak, hl, h, List.takeWhile_cons]
    · simp [newAlarmsLoop, seenBreak, hl, h, List.takeWhile_cons, ih]

/-- With an absent remembered id the loop never breaks. -/
theorem newAlarmsLoop_none (S : List Alarm) : newAlarmsLoop none S = S := by
  induction S with
  | nil => rfl
  | cons a rest ih => simp [newAlarmsLoop, seenBreak, ih]

/-- Row construction of `parse_alarms`, watcher.py lines 298-318: the first
seven cell texts of the row (the row is only used when it has at least
seven cells) plus the source URL. -/
def mkAlarm (r : List String) (url : String) : Alarm :=
  { ref := r.getD 0 "", etiqueta := r.getD 1 "", tipo := r.getD 2 "",
    valor := r.getD 3 "", hora := r.getD 4 "", transicion := r.getD 5 "",
    estado := r.getD 6 "", url := url }

/-- The row loop of `parse_alarms`, watcher.py lines 293-318: rows with
fewer than 7 cells are skipped (`continue`), the rest become records in
source order. -/
def alarmRows (url : String) : List (List String) → List Alarm
  | [] => []
  | r :: rest =>
    if r.length < 7 then alarmRows url rest
    else mkAlarm r url :: alarmRows url rest

/-- `parse_alarms`, watcher.py lines 282-320.  The document is `none` when
no table element is present (→ `RuntimeError`), otherwise the list of rows
of the first table, each row its cell texts.  Fewer than two rows yields
the empty list; otherwise row 0 is skipped as header. -/
def parse_alarms (doc : Option (List (List String))) (url : String) :
    Except String (List Alarm) :=
  match doc with
  | none => Except.error "No se encontró la tabla de alarmas"
  | some rows =>
    if rows.length < 2 then Except.ok []
    else Except.ok (alarmRows url rows.tail)

/-- A signal record as built by `parse_signals`, watcher.py lines 218-230:
cells 0,1,2,3 and 5 of a sensor-table row (cell 4 is unused). -/
structure Signal where
  code : String
  label : String
  value : String
  unit : String
  alarm : String
  deriving DecidableEq, Repr

/-- Row construction of `parse_signals`, watcher.py lines 218-230. -/
def mkSignal (r : List String) : Signal :=
  { code := r.getD 0 "", label := r.getD 1 "", value := r.getD 2 "",
    unit := r.getD 3 "", alarm := r.getD 5 "" }

/-- The row loop of `parse_signals`, watcher.py lines 212-230: rows with
fewer than 6 cells are skipped, the rest become records in source order. -/
def signalRows : List (List String) → List Signal
  | [] => []
  | r :: rest =>
    if r.length < 6 then signalRows rest
    else mkSignal r :: signalRows rest

/-- Python's `str.strip()` on a character list: drop leading and trailing
whitespace. -/
def stripChars (cs : List Char) : List Char :=
  ((cs.dropWhile Char.isWhitespace).reverse.dropWhile Char.isWhitespace).reverse

/-- Decimal value of a digit list (used after an all-digits check). -/
def digitsVal (cs : List Char) : Nat :=
  cs.foldl (fun n c => n * 10 + (c.toNat - 48)) 0

/-- Python's `int(str)` restricted to plain decimal digit strings:
`none` (an exception in Python) unless non-empty and all digits.
(Python's `int` also accepts a sign or inner underscores; the model agrees
on every code of the `S<digits>` shape the sort is designed for.) -/
def decDigits? (cs : List Char) : Option Nat :=
  if cs.isEmpty then none
  else if cs.all Char.isDigit then some (digitsVal cs) else none

/-- The sort key `key_fn` of `parse_signals`, watcher.py lines 233-240:
`c = code.strip().upper()`; codes of shape `S<digits>` sort by the
number, everything else gets the sentinel `10**9`. -/
def sigKey (s : Signal) : Nat :=
  match (stripChars s.code.data).map Char.toUpper with
  | 'S' :: rest =>
    match decDigits? rest with
    | some n => n
    | none => 1000000000
  | _ => 1000000000

/-- Insert into a key-sorted list, before the first element of
greater-or-equal key.  Used to model Python's stable `list.sort(key=...)`:
a stable sort by a key is uniquely determined, so stable insertion sort
produces the same list as Timsort. -/
def insertByKey (s : Signal) : List Signal → List Signal
  | [] => [s]
  | t :: ts => if sigKey s ≤ sigKey t then s :: t :: ts else t :: insertByKey s ts

/-- Stable insertion sort by `sigKey`, modelling
`signals.sort(key=key_fn)` at watcher.py line 242. -/
def sortSignals : List Signal → List Signal
  | [] => []
  | s :: ss => insertByKey s (sortSignals ss)

/-- `parse_signals`, watcher.py lines 201-243: like `parse_alarms` but
with 6 minimum cells and the final sort of the kept rows by `sigKey`. -/
def parse_signals (doc : Option (List (List String))) :
    Except String (List Signal) :=
  match doc with
  | none => Except.error "No se encontró la tabla de sensores (S.htm)"
  | some rows =>
    if rows.length < 2 then Except.ok []
    else Except.ok (sortSignals (signalRows rows.tail))

/-- The alarm row loop is the order-preserving filter-map over the rows. -/
theorem alarmRows_eq_filterMap (url : String) (rows : List (List String)) :
    alarmRows url rows =
      rows.filterMap (fun r => if r.length < 7 then none else some (mkAlarm r url)) := by
  induction rows with
  | nil => rfl
  | cons r rest ih => by_cases h : r.length < 7 <;> simp [alarmRows, h, ih]

/-- The signal row loop is the order-preserving filter-map over the rows. -/
theorem signalRows_eq_filterMap (rows : List (List String)) :
    signalRows rows =
      rows.filterMap (fun r => if r.length < 6 then none else some (mkSignal r)) := by
  induction rows with
  | nil => rfl
  | cons r rest ih => by_cases h : r.length < 6 <;> simp [signalRows, h, ih]

/-- The characters matched by the character class `[A-F0-9]` of the token
regex at watcher.py line 167. -/
def isHexUpper (c : Char) : Bool :=
  ('0' ≤ c && c ≤ '9') || ('A' ≤ c && c ≤ 'F')

/-- The regex `param0=([A-F0-9]+)` anchored at the start of `cs`: the
literal `param0=` followed by at least one `[A-F0-9]` character; the
capture is the maximal (greedy) hex run. -/
def matchParam0At (cs : List Char) : Option String :=
  if cs.take 7 = "param0=".data then
    let hex := (cs.drop 7).takeWhile isHexUpper
    if hex.isEmpty then none else some (String.mk hex)
  else none

/-- Leftmost-match scan of `re.search` over the character list. -/
def findParam0Aux : List Char → Option String
  | [] => none
  | c :: cs =>
    match matchParam0At (c :: cs) with
    | some t => some t
    | none => findParam0Aux cs

/-- `re.search(r"param0=([A-F0-9]+)", u)` returning the captured group,
watcher.py lines 167-169 and 176-178. -/
def findParam0 (u : String) : Option String :=
  findParam0Aux u.data

/-- The token scan loop over candidate URLs, watcher.py lines 165-170:
the first URL with a match wins (`break`). -/
def findParam0InUrls : List String → Option String
  | [] => none
  | u :: us =>
    match findParam0 u with
    | some t => some t
    | none => findParam0InUrls us

/-- Token recovery of `login_and_get_session`, watcher.py lines 163-183:
scan each redirect `Location` header then the final URL; only if none
matched, scan the href of the first hyperlink of the response body
(`none` when the body has no hyperlink); raise if still nothing. -/
def extract_param0 (historyLocations : List String) (finalUrl : String)
    (firstHref : Option String) : Except String String :=
  match findParam0InUrls (historyLocations ++ [finalUrl]) with
  | some t => Except.ok t
  | none =>
    match firstHref with
    | some h =>
      match findParam0 h with
      | some t => Except.ok t
      | none => Except.error "Login succeeded but could not extract param0 session token"
    | none => Except.error "Login succeeded but could not extract param0 session token"

/-- The URL scan fails exactly when every candidate URL fails. -/
theorem findParam0InUrls_eq_none_iff (l : List String) :
    findParam0InUrls l = none ↔ ∀ u ∈ l, findParam0 u = none := by
  induction l with
  | nil => simp [findParam0InUrls]
  | cons u us ih =>
    cases hu : findParam0 u with
    | some t => simp [findParam0InUrls, hu]
    | none => simp [findParam0InUrls, hu, ih]

/-- An `input` element of the login form: its optional `name` and `value`
attributes, and its `type` attribute.  `parse_hidden_inputs`
(watcher.py lines 128-135) reads only `name` and `value`; `type` is
carried so the spec's hidden-only reading can be stated against it. -/
structure FormInput where
  name : Option String
  value : Option String
  type : String
  deriving DecidableEq, Repr

/-- One input as a key/value pair: inputs with a falsy name (absent or
empty) are skipped, a missing `value` collects as `""` (watcher.py lines
130-134). -/
def namedPair (inp : FormInput) : Option (String × String) :=
  match inp.name with
  | none => none
  | some n => if n = "" then none else some (n, inp.value.getD "")

/-- The dict-building loop of `parse_hidden_inputs`, watcher.py lines
129-135.  The dict is represented as an association list whose most
recent binding comes first, so `List.lookup` returns the latest binding —
Python dict assignment semantics. -/
def hiddenLoop (acc : List (String × String)) : List FormInput → List (String × String)
  | [] => acc
  | inp :: rest =>
    match namedPair inp with
    | none => hiddenLoop acc rest
    | some p => hiddenLoop (p :: acc) rest

/-- `parse_hidden_inputs`, watcher.py lines 128-135: note it iterates over
every `input` of the form, with no filter on `type`. -/
def parse_hidden_inputs (form : List FormInput) : List (String × String) :=
  hiddenLoop [] form

/-- The submitted payload of `login_and_get_session`, watcher.py lines
156-158: the collected pairs with `payload["param1"] = PLC_USERNAME` and
`payload["param2"] = PLC_PASSWORD` assigned on top. -/
def loginPayload (form : List FormInput) (username password : String) :
    List (String × String) :=
  ("param2", password) :: ("param1", username) :: parse_hidden_inputs form

/-- Modelled from the spec's words ("collect all hidden-input name/value
pairs from that form"): the same collection restricted to inputs whose
`type` is `hidden`.  Used only to compare the claim against the code. -/
def hiddenOnlyPairs (form : List FormInput) : List (String × String) :=
  ((form.filter (fun i => i.type == "hidden")).filterMap namedPair).reverse

/-- The dict loop collects exactly the named inputs, latest binding
first. -/
theorem hiddenLoop_eq (form : List FormInput) :
    ∀ acc, hiddenLoop acc form = (form.filterMap namedPair).reverse ++ acc := by
  induction form with
  | nil => intro acc; rfl
  | cons inp rest ih =>
    intro acc
    cases hp : namedPair inp with
    | none => simp [hiddenLoop, hp, ih]
    | some p => simp [hiddenLoop, hp, ih]

/-- Concrete alarms for witnesses, mirroring the spec's §8 example rows
`[("R1","t3"), ("R2","t2"), ("R3","t1")]` (most recent first). -/
def alarmA : Alarm := ⟨"R1", "", "", "", "t3", "", "", ""⟩

def alarmB : Alarm := ⟨"R2", "", "", "", "t2", "", "", ""⟩

def alarmC : Alarm := ⟨"R3", "", "", "", "t1", "", "", ""⟩

/-- C1: for every most-recent-first alarm sequence `S` and every
`last_seen_id` that is the id of some element of `S`, change detection
returns exactly the prefix of `S` strictly before the first element whose
id equals `last_seen_id`, reversed into chronological order; the matching
element and everything after it are discarded. -/
theorem c1_detect_new_seen_id (S : List Alarm) (l : String)
    (h : l ∈ S.map Alarm.id) :
    detect_new S (some l) = (S.takeWhile (fun a => a.id != l)).reverse := by
  have hl : l ≠ "" := by
    rcases List.mem_map.1 h with ⟨a, _, rfl⟩
    exact a.id_ne_empty
  rw [detect_new, newAlarmsLoop_eq_takeWhile l hl]

/-- Witness for C1 on the spec's three-row example with the middle id
remembered: only the newer row is new. -/
theorem c1_detect_new_seen_id_witness :
    alarmB.id ∈ ([alarmA, alarmB, alarmC].map Alarm.id) ∧
      detect_new [alarmA, alarmB, alarmC] (some alarmB.id) =
        (([alarmA, alarmB, alarmC].takeWhile (fun a => a.id != alarmB.id)).reverse) :=
  ⟨by decide, c1_detect_new_seen_id [alarmA, alarmB, alarmC] alarmB.id (by decide)⟩

/-- C2: with an absent `last_seen_id` the change detection step treats the
whole non-empty sequence as new — everything is returned in chronological
order with no filtering — and, being a pure function of its inputs,
repeated calls on identical inputs return the same result. -/
theorem c2_detect_new_absent_id (S : List Alarm) (_hne : S ≠ []) :
    detect_new S none = S.reverse ∧ detect_new S none = detect_new S none :=
  ⟨by rw [detect_new, newAlarmsLoop_none], rfl⟩

/-- Witness for C2 on a concrete two-alarm sequence. -/
theorem c2_detect_new_absent_id_witness :
    detect_new [alarmA, alarmB] none = [alarmA, alarmB].reverse ∧
      detect_new [alarmA, alarmB] none = detect_new [alarmA, alarmB] none :=
  c2_detect_new_absent_id [alarmA, alarmB] (by decide)

/-- C5: both extractors fail with a parse error when the document has no
table element, and return the empty sequence — not an error — when the
first table has fewer than two rows (header only, or empty). -/
theorem c5_no_table_and_short_table (url : String) :
    parse_alarms none url = Except.error "No se encontró la tabla de alarmas" ∧
      parse_signals none = Except.error "No se encontró la tabla de sensores (S.htm)" ∧
      (∀ rows, rows.length < 2 → parse_alarms (some rows) url = Except.ok []) ∧
      (∀ rows, rows.length < 2 → parse_signals (some rows) = Except.ok []) := by
  refine ⟨rfl, rfl, ?_, ?_⟩ <;> intro rows h <;> simp [parse_alarms, parse_signals, h]

/-- Witness for C5: a header-only alarm table yields the empty list. -/
theorem c5_no_table_and_short_table_witness :
    parse_alarms (some [["h1", "h2", "h3", "h4", "h5", "h6", "h7"]]) "u" = Except.ok [] :=
  (c5_no_table_and_short_table "u").2.2.1 [["h1", "h2", "h3", "h4", "h5", "h6", "h7"]] (by decide)

/-- A six-cell sensor header row. -/
def sigHeader : List String := ["c", "l", "v", "u", "t", "a"]

/-- A sensor row with code S2, appearing first in the source table. -/
def sigRowS2 : List String := ["S2", "lbl2", "v2", "u2", "x", "al2"]

/-- A sensor row with code S1, appearing second in the source table. -/
def sigRowS1 : List String := ["S1", "lbl1", "v1", "u1", "y", "al1"]

/-- Counterexample to C6 as stated: on the sensor table whose kept rows
appear in source order S2, S1, the extractor's output is NOT in
source-document order — `parse_signals` sorts the kept rows by the numeric
suffix of their code (watcher.py lines 232-242), returning S1 before S2. -/
theorem c6_source_order_counterexample :
    (parse_signals (some [sigHeader, sigRowS2, sigRowS1])).toOption ≠
      some [mkSignal sigRowS2, mkSignal sigRowS1] := by decide

/-- C6 amended: each extractor skips row 0 as header and silently skips
every later row with fewer than the minimum number of cells (7 for
alarms, 6 for signals) while keeping all later rows; the kept alarm rows
come out in source-document order, while the kept signal rows are
additionally sorted by the numeric suffix of their code. -/
theorem c6_row_skipping_amended (rows : List (List String)) (url : String) :
    parse_alarms (some rows) url =
        Except.ok (rows.tail.filterMap
          (fun r => if r.length < 7 then none else some (mkAlarm r url))) ∧
      parse_signals (some rows) =
        Except.ok (sortSignals (rows.tail.filterMap
          (fun r => if r.length < 6 then none else some (mkSignal r)))) := by
  have htail : rows.length < 2 → rows.tail = [] := by
    intro h
    cases rows with
    | nil => rfl
    | cons r rest =>
      cases rest with
      | nil => rfl
      | cons r2 rest2 => exact absurd h (by simp)
  constructor
  · by_cases h : rows.length < 2
    · simp [parse_alarms, h, htail h]
    · simp [parse_alarms, h, alarmRows_eq_filterMap]
  · by_cases h : rows.length < 2
    · simp [parse_signals, h, htail h, sortSignals]
    · simp [parse_signals, h, signalRows_eq_filterMap]

/-- One observable effect of a `check_once` cycle: a CSV append
(watcher.py line 380), an alarm Telegram message (line 390), the overflow
summary message (line 400), or the state save (line 403). -/
inductive Event where
  | logCsv (a : Alarm)
  | sendAlarm (a : Alarm)
  | sendInfo (sent : Nat) (total : Nat) (skipped : Nat)
  | saveState (i : String)
  deriving DecidableEq, Repr

/-- The cycle-aborting exceptions of the dispatch phase: a Telegram send
raising for an alarm message (watcher.py lines 341-344) or for the
overflow summary (lines 406-410). -/
inductive CycleErr where
  | notifyErr
  | infoErr
  deriving DecidableEq, Repr

/-- The Telegram transport as a success oracle: whether sending a given
alarm message returns HTTP 200, and whether sending the summary text
does. -/
structure Oracle where
  sendOk : Alarm → Bool
  infoOk : Bool

/-- The send loop of watcher.py lines 388-391 over the capped list: the
events emitted, the number of successful sends (`sent`), and whether the
loop ran to completion — `send_telegram` raises on the first non-200
response, which aborts the loop. -/
def notifyLoop (sendOk : Alarm → Bool) : List Alarm → List Event × Nat × Bool
  | [] => ([], 0, true)
  | a :: rest =>
    if sendOk a then
      let r := notifyLoop sendOk rest
      (Event.sendAlarm a :: r.1, r.2.1 + 1, r.2.2)
    else ([], 0, false)

/-- The detection/dispatch/persist phase of `check_once`, watcher.py
lines 359-404, as a pure function of the parsed alarm list (most recent
first), the stored last-seen id, the per-cycle cap and the transport
oracle.  It returns the emitted effects plus the cycle outcome:
`Except.ok (some i)` when the cycle completed and persisted `i`,
`Except.ok none` when it returned early with nothing to do, and
`Except.error` when a Telegram send raised (the exception is caught in
`main`, watcher.py lines 417-421). -/
def check_once (o : Oracle) (alarms : List Alarm) (lastId : Option String)
    (cap : Nat) : List Event × Except CycleErr (Option String) :=
  match alarms with
  | [] => ([], Except.ok none)
  | a0 :: rest =>
    let newAlarms := detect_new (a0 :: rest) lastId
    if newAlarms = [] then ([], Except.ok none)
    else
      let logEvents := newAlarms.map Event.logCsv
      let limited := newAlarms.take cap
      let skipped := newAlarms.length - limited.length
      let r := notifyLoop o.sendOk limited
      if r.2.2 then
        if skipped > 0 then
          if o.infoOk then
            (logEvents ++ r.1 ++
              [Event.sendInfo r.2.1 newAlarms.length skipped, Event.saveState a0.id],
             Except.ok (some a0.id))
          else (logEvents ++ r.1, Except.error CycleErr.infoErr)
        else (logEvents ++ r.1 ++ [Event.saveState a0.id], Except.ok (some a0.id))
      else (logEvents ++ r.1, Except.error CycleErr.notifyErr)

/-- When the transport accepts every message, the send loop sends
everything in order and completes. -/
theorem notifyLoop_all_ok (f : Alarm → Bool) (l : List Alarm)
    (h : ∀ a ∈ l, f a = true) :
    notifyLoop f l = (l.map Event.sendAlarm, l.length, true) := by
  induction l with
  | nil => rfl
  | cons a rest ih =>
    have ha := h a (List.mem_cons_self a rest)
    simp [notifyLoop, ha, ih fun b hb => h b (List.mem_cons_of_mem a hb)]

/-- When the transport rejects `bad` after accepting everything before
it, the loop stops at `bad`: only the earlier sends happen. -/
theorem notifyLoop_firstFail (f : Alarm → Bool) (pre : List Alarm) (bad : Alarm)
    (post : List Alarm) (hpre : ∀ a ∈ pre, f a = true) (hbad : f bad = false) :
    notifyLoop f (pre ++ bad :: post) = (pre.map Event.sendAlarm, pre.length, false) := by
  induction pre with
  | nil => simp [notifyLoop, hbad]
  | cons a rest ih =>
    have ha := hpre a (List.mem_cons_self a rest)
    simp [notifyLoop, ha, ih fun b hb => hpre b (List.mem_cons_of_mem a hb)]

/-- Every event the send loop emits is an alarm notification for some
element of its input. -/
theorem notifyLoop_events_sendAlarm (f : Alarm → Bool) (l : List Alarm) :
    ∀ ev ∈ (notifyLoop f l).1, ∃ a ∈ l, ev = Event.sendAlarm a := by
  induction l with
  | nil => simp [notifyLoop]
  | cons a rest ih =>
    intro ev hev
    by_cases hf : f a
    · simp [notifyLoop, hf] at hev
      rcases hev with rfl | hev
      · exact ⟨a, List.mem_cons_self a rest, rfl⟩
      · rcases ih ev hev with ⟨b, hb, rfl⟩
        exact ⟨b, List.mem_cons_of_mem a hb, rfl⟩
    · simp [notifyLoop, hf] at hev

/-- Full characterisation of a successful cycle with new alarms: all new
alarms logged first, then the capped subset notified in order, then the
overflow summary when the cap bit, then the state save of the newest
observed alarm's id. -/
theorem check_once_success (o : Oracle) (a0 : Alarm) (rest : List Alarm)
    (lastId : Option String) (cap : Nat)
    (hne : detect_new (a0 :: rest) lastId ≠ [])
    (hok : ∀ a ∈ (detect_new (a0 :: rest) lastId).take cap, o.sendOk a = true)
    (hinfo : o.infoOk = true) :
    check_once o (a0 :: rest) lastId cap =
      ((detect_new (a0 :: rest) lastId).map Event.logCsv
        ++ ((detect_new (a0 :: rest) lastId).take cap).map Event.sendAlarm
        ++ (if cap < (detect_new (a0 :: rest) lastId).length then
              [Event.sendInfo ((detect_new (a0 :: rest) lastId).take cap).length
                (detect_new (a0 :: rest) lastId).length
                ((detect_new (a0 :: rest) lastId).length - cap)]
            else [])
        ++ [Event.saveState a0.id],
       Except.ok (some a0.id)) := by
  have hloop := notifyLoop_all_ok o.sendOk ((detect_new (a0 :: rest) lastId).take cap) hok
  have hlen : ((detect_new (a0 :: rest) lastId).take cap).length =
      min cap (detect_new (a0 :: rest) lastId).length := by simp
  by_cases hlt : cap < (detect_new (a0 :: rest) lastId).length
  · have hskip : (detect_new (a0 :: rest) lastId).length -
        ((detect_new (a0 :: rest) lastId).take cap).length > 0 := by omega
    have hsub : (detect_new (a0 :: rest) lastId).length -
        ((detect_new (a0 :: rest) lastId).take cap).length =
        (detect_new (a0 :: rest) lastId).length - cap := by omega
    simp [check_once, hne, hloop, hinfo, hskip, hlt, hsub]
    omega
  · have hskip : ¬ ((detect_new (a0 :: rest) lastId).length -
        ((detect_new (a0 :: rest) lastId).take cap).length > 0) := by omega
    simp [check_once, hne, hloop, hskip, hlt]

/-- C3: session-token recovery first scans, in order, every URL of the
redirect history plus the final URL for the hexadecimal `param0` token;
only if none matches does it scan the href of the first hyperlink of the
response body with the same pattern; and it fails with the authentication
error exactly when neither pass recovers a token. -/
theorem c3_token_recovery (hist : List String) (finalUrl : String)
    (href : Option String) :
    (∀ t, findParam0InUrls (hist ++ [finalUrl]) = some t →
        extract_param0 hist finalUrl href = Except.ok t) ∧
      ((∀ u ∈ hist ++ [finalUrl], findParam0 u = none) →
        ∀ h t, href = some h → findParam0 h = some t →
          extract_param0 hist finalUrl href = Except.ok t) ∧
      (extract_param0 hist finalUrl href =
          Except.error "Login succeeded but could not extract param0 session token" ↔
        (∀ u ∈ hist ++ [finalUrl], findParam0 u = none) ∧
          (∀ h, href = some h → findParam0 h = none)) := by
  refine ⟨?_, ?_, ?_⟩
  · intro t ht
    simp [extract_param0, ht]
  · intro hall h t hhref hfind
    have hnone : findParam0InUrls (hist ++ [finalUrl]) = none :=
      (findParam0InUrls_eq_none_iff _).2 hall
    simp [extract_param0, hnone, hhref, hfind]
  · cases hscan : findParam0InUrls (hist ++ [finalUrl]) with
    | some t =>
      constructor
      · intro heq
        simp [extract_param0, hscan] at heq
      · rintro ⟨hall, -⟩
        simp [(findParam0InUrls_eq_none_iff _).2 hall] at hscan
    | none =>
      cases href with
      | none =>
        constructor
        · intro _
          refine ⟨(findParam0InUrls_eq_none_iff _).1 hscan, ?_⟩
          intro h hh
          exact Option.noConfusion hh
        · intro _
          simp [extract_param0, hscan]
      | some h =>
        cases hf : findParam0 h with
        | some t =>
          constructor
          · intro heq
            simp [extract_param0, hscan, hf] at heq
          · rintro ⟨-, hnone⟩
            have := hnone h rfl
            simp [hf] at this
        | none =>
          constructor
          · intro _
            refine ⟨(findParam0InUrls_eq_none_iff _).1 hscan, ?_⟩
            intro h' hh'
            cases hh'
            exact hf
          · intro _
            simp [extract_param0, hscan, hf]

/-- Witness for C3: the token sits in the final URL of the redirect
chain, and the first pass recovers it. -/
theorem c3_token_recovery_witness :
    extract_param0 ["/idx.htm"] "/menu.htm?param0=AB12" none = Except.ok "AB12" :=
  (c3_token_recovery ["/idx.htm"] "/menu.htm?param0=AB12" none).1 "AB12" (by decide)

/-- A login form whose only input is a named, non-hidden text field. -/
def textOnlyForm : List FormInput := [⟨some "user", some "x", "text"⟩]

/-- Counterexample to C4 as stated: the submitted payload is not the
hidden-input pairs plus the two credential slots — `parse_hidden_inputs`
(watcher.py line 130) iterates over every `input` of the form regardless
of its `type`, so the named non-hidden field `user` still reaches the
payload. -/
theorem c4_hidden_only_counterexample :
    (loginPayload textOnlyForm "u" "p").lookup "user" ≠
      (hiddenOnlyPairs textOnlyForm).lookup "user" := by decide

/-- C4 amended: the submitted payload consists exactly of the name/value
pairs of all named inputs of the login form (regardless of input type),
unmodified, with the username and password injected into the fixed slots
`param1` and `param2`, overriding any collected fields of those names. -/
theorem c4_payload_amended (form : List FormInput) (username password k : String) :
    (loginPayload form username password).lookup k =
      if k = "param2" then some password
      else if k = "param1" then some username
      else ((form.filterMap namedPair).reverse).lookup k := by
  by_cases h2 : k = "param2"
  · subst h2
    simp [loginPayload, List.lookup]
  · have hb2 : (k == "param2") = false := beq_eq_false_iff_ne.2 h2
    by_cases h1 : k = "param1"
    · subst h1
      simp [loginPayload, List.lookup, hb2]
    · have hb1 : (k == "param1") = false := beq_eq_false_iff_ne.2 h1
      simp [loginPayload, parse_hidden_inputs, hiddenLoop_eq, List.lookup, hb2, hb1, h1, h2]

/-- An oracle whose transport accepts every message. -/
def allOkOracle : Oracle := ⟨fun _ => true, true⟩

/-- An oracle whose transport rejects exactly the message for `alarmB`. -/
def failBOracle : Oracle := ⟨fun a => a.id != alarmB.id, true⟩

/-- C7: in a cycle that detects `n` new alarms with cap `c` and a
transport that accepts everything, all `n` alarms are appended to the CSV
log before any notification is attempted, exactly the first
`min(n, c)` (chronologically ordered) alarms are notified, and when
`n > c` one additional summary notification reports sent vs. total vs.
skipped counts. -/
theorem c7_dispatch_cap_and_log (o : Oracle) (a0 : Alarm) (rest : List Alarm)
    (lastId : Option String) (cap : Nat)
    (hne : detect_new (a0 :: rest) lastId ≠ [])
    (hok : ∀ a ∈ (detect_new (a0 :: rest) lastId).take cap, o.sendOk a = true)
    (hinfo : o.infoOk = true) :
    (check_once o (a0 :: rest) lastId cap).1 =
      (detect_new (a0 :: rest) lastId).map Event.logCsv
        ++ ((detect_new (a0 :: rest) lastId).take cap).map Event.sendAlarm
        ++ (if cap < (detect_new (a0 :: rest) lastId).length then
              [Event.sendInfo (min cap (detect_new (a0 :: rest) lastId).length)
                (detect_new (a0 :: rest) lastId).length
                ((detect_new (a0 :: rest) lastId).length - cap)]
            else [])
        ++ [Event.saveState a0.id] := by
  rw [check_once_success o a0 rest lastId cap hne hok hinfo]
  simp

/-- Witness for C7: three new alarms, cap 2 — three log events, two alarm
notifications, one summary. -/
theorem c7_dispatch_cap_and_log_witness :
    (check_once allOkOracle [alarmA, alarmB, alarmC] none 2).1 =
      (detect_new [alarmA, alarmB, alarmC] none).map Event.logCsv
        ++ ((detect_new [alarmA, alarmB, alarmC] none).take 2).map Event.sendAlarm
        ++ (if 2 < (detect_new [alarmA, alarmB, alarmC] none).length then
              [Event.sendInfo (min 2 (detect_new [alarmA, alarmB, alarmC] none).length)
                (detect_new [alarmA, alarmB, alarmC] none).length
                ((detect_new [alarmA, alarmB, alarmC] none).length - 2)]
            else [])
        ++ [Event.saveState alarmA.id] :=
  c7_dispatch_cap_and_log allOkOracle alarmA [alarmB, alarmC] none 2
    (by decide) (by decide) rfl

/-- C8: when the transport rejects some alarm of the capped subset, the
cycle fails with the notification error right there: alarms before the
failing one have been sent, none after it is attempted, and no summary
and no state save happen. -/
theorem c8_notify_failfast (o : Oracle) (alarms : List Alarm)
    (lastId : Option String) (cap : Nat) (pre : List Alarm) (bad : Alarm)
    (post : List Alarm)
    (hsplit : (detect_new alarms lastId).take cap = pre ++ bad :: post)
    (hpre : ∀ a ∈ pre, o.sendOk a = true) (hbad : o.sendOk bad = false) :
    check_once o alarms lastId cap =
      ((detect_new alarms lastId).map Event.logCsv ++ pre.map Event.sendAlarm,
       Except.error CycleErr.notifyErr) := by
  have hne : detect_new alarms lastId ≠ [] := by
    intro h
    rw [h] at hsplit
    simp at hsplit
  cases alarms with
  | nil => exact absurd rfl hne
  | cons a0 rest =>
    have hloop := notifyLoop_firstFail o.sendOk pre bad post hpre hbad
    rw [← hsplit] at hloop
    simp [check_once, hne, hloop]

/-- Witness for C8: the second of three pending notifications fails; only
the first is sent, the cycle errors out. -/
theorem c8_notify_failfast_witness :
    check_once failBOracle [alarmA, alarmB, alarmC] none 3 =
      ((detect_new [alarmA, alarmB, alarmC] none).map Event.logCsv
        ++ [alarmC].map Event.sendAlarm,
       Except.error CycleErr.notifyErr) :=
  c8_notify_failfast failBOracle [alarmA, alarmB, alarmC] none 3
    [alarmC] alarmB [alarmA] (by decide) (by decide) (by decide)

/-- C9: every successful cycle with at least one new alarm persists the
id of the newest observed alarm — the head of the most-recent-first
fetched sequence, independent of the cap — and the state write is the
last effect of the cycle. -/
theorem c9_persist_newest_observed (o : Oracle) (a0 : Alarm) (rest : List Alarm)
    (lastId : Option String) (cap : Nat)
    (hne : detect_new (a0 :: rest) lastId ≠ [])
    (hok : ∀ a ∈ (detect_new (a0 :: rest) lastId).take cap, o.sendOk a = true)
    (hinfo : o.infoOk = true) :
    (check_once o (a0 :: rest) lastId cap).2 = Except.ok (some a0.id) ∧
      (check_once o (a0 :: rest) lastId cap).1.getLast? =
        some (Event.saveState a0.id) := by
  rw [check_once_success o a0 rest lastId cap hne hok hinfo]
  exact ⟨rfl, List.getLast?_concat _⟩

/-- Witness for C9: with a cap of 1 only the oldest new alarm is
notified, yet the persisted id is that of the newest observed alarm. -/
theorem c9_persist_newest_observed_witness :
    (check_once allOkOracle [alarmA, alarmB, alarmC] none 1).2 =
        Except.ok (some alarmA.id) ∧
      (check_once allOkOracle [alarmA, alarmB, alarmC] none 1).1.getLast? =
        some (Event.saveState alarmA.id) :=
  c9_persist_newest_observed allOkOracle alarmA [alarmB, alarmC] none 1
    (by decide) (by decide) rfl

/-- C10: when any Telegram send raises during a cycle — an alarm
notification or the overflow summary — the state is not written in that
cycle (no save effect at all), and every alarm logged in that cycle is
still in `detect_new` for the unchanged stored id, so with the same alarm
page it is detected as new again on the next cycle. -/
theorem c10_no_save_on_send_failure (o : Oracle) (alarms : List Alarm)
    (lastId : Option String) (cap : Nat) (e : CycleErr)
    (herr : (check_once o alarms lastId cap).2 = Except.error e) :
    (∀ i, Event.saveState i ∉ (check_once o alarms lastId cap).1) ∧
      (∀ a, Event.logCsv a ∈ (check_once o alarms lastId cap).1 →
        a ∈ detect_new alarms lastId) := by
  cases alarms with
  | nil => simp [check_once] at herr
  | cons a0 rest =>
    by_cases hnew : detect_new (a0 :: rest) lastId = []
    · simp [check_once, hnew] at herr
    · rcases hr : notifyLoop o.sendOk ((detect_new (a0 :: rest) lastId).take cap)
        with ⟨evs, cnt, ok⟩
      have hev : ∀ ev ∈ evs,
          ∃ a ∈ (detect_new (a0 :: rest) lastId).take cap, ev = Event.sendAlarm a := by
        have h := notifyLoop_events_sendAlarm o.sendOk
          ((detect_new (a0 :: rest) lastId).take cap)
        rw [hr] at h
        exact h
      have main :
          (∀ i, Event.saveState i ∉
            (detect_new (a0 :: rest) lastId).map Event.logCsv ++ evs) ∧
          (∀ a, Event.logCsv a ∈
              (detect_new (a0 :: rest) lastId).map Event.logCsv ++ evs →
            a ∈ detect_new (a0 :: rest) lastId) := by
        constructor
        · intro i hi
          rcases List.mem_append.1 hi with hmem | hmem
          · rcases List.mem_map.1 hmem with ⟨a, -, ha⟩
            exact Event.noConfusion ha
          · rcases hev _ hmem with ⟨a, -, ha⟩
            exact Event.noConfusion ha
        · intro a ha
          rcases List.mem_append.1 ha with hmem | hmem
          · rcases List.mem_map.1 hmem with ⟨b, hb, hba⟩
            injection hba with hba'
            exact hba' ▸ hb
          · rcases hev _ hmem with ⟨c, -, hc⟩
            exact Event.noConfusion hc
      cases ok with
      | true =>
        have hlen : ((detect_new (a0 :: rest) lastId).take cap).length =
            min cap (detect_new (a0 :: rest) lastId).length := by simp
        by_cases hlt : cap < (detect_new (a0 :: rest) lastId).length
        · have hskip : (detect_new (a0 :: rest) lastId).length -
              ((detect_new (a0 :: rest) lastId).take cap).length > 0 := by omega
          by_cases hinfo : o.infoOk
          · simp [check_once, hnew, hr, hskip, hinfo, hlt] at herr
          · have heq : (check_once o (a0 :: rest) lastId cap).1 =
                (detect_new (a0 :: rest) lastId).map Event.logCsv ++ evs := by
              simp [check_once, hnew, hr, hskip, hinfo, hlt]
            rw [heq]
            exact main
        · have hskip : ¬ ((detect_new (a0 :: rest) lastId).length -
              ((detect_new (a0 :: rest) lastId).take cap).length > 0) := by omega
          simp [check_once, hnew, hr, hskip, hlt] at herr
      | false =>
        have heq : (check_once o (a0 :: rest) lastId cap).1 =
            (detect_new (a0 :: rest) lastId).map Event.logCsv ++ evs := by
          simp [check_once, hnew, hr]
        rw [heq]
        exact main

/-- Witness for C10: the failing cycle of the C8 scenario writes no state
and everything it logged is still detected as new with the unchanged
stored id. -/
theorem c10_no_save_on_send_failure_witness :
    (∀ i, Event.saveState i ∉
        (check_once failBOracle [alarmA, alarmB, alarmC] none 3).1) ∧
      (∀ a, Event.logCsv a ∈
          (check_once failBOracle [alarmA, alarmB, alarmC] none 3).1 →
        a ∈ detect_new [alarmA, alarmB, alarmC] none) :=
  c10_no_save_on_send_failure failBOracle [alarmA, alarmB, alarmC] none 3
    CycleErr.notifyErr rfl

end PlcWatcher
